import Mathlib

set_option maxHeartbeats 1000000

/-!
Verification development for the go-docker-registry core: a shallow embedding
of the registry's image-upload handlers, the TarSum digest, the tar file
listing, repository-metadata construction and the caching wrappers, together
with theorems settling the specification's claims about them.

Modelling conventions:
* Byte sequences are Lean `String`s (the relevant bytes are ASCII).
* The Go standard-library composition `hex.EncodeToString ∘ sha256` is an
  external collaborator of the core, so it is abstracted as a function
  parameter `shaHex : String → String`; every theorem about digests is
  universally quantified over it.
* The blob store is an association list from logical keys to blobs with
  explicit state passing; each write appends an event so that write ordering
  is observable.
* Stdlib decoding steps (json.Unmarshal, gzip/tar parsing) are supplied to a
  handler as the already-decoded value (`Option …`), `none` meaning the
  decode failed.
-/

namespace Registry

/-- A tar entry as seen by the Go handlers: the fields of `tar.Header` that the
core reads (`ModTime.UTC().Unix()` is pre-flattened to `mtime`), plus the
entry's body bytes that `tar.Reader` would yield for it. -/
structure TarEntry where
  name : String
  mode : Int
  uid : Int
  gid : Int
  size : Int
  mtime : Int
  typeflag : Char
  linkname : String
  uname : String
  gname : String
  devmajor : Int
  devminor : Int
  body : String
deriving DecidableEq

/-- The canonical header string of `TarSum.Append` (part_001:86-100):
`"name"+Name` (with a `/` appended for directory entries whose accumulated
string does not already end in `/`), then `mode`, `uid`, `gid`, `size`,
`mtime`, `typeflag`, `linkname`, `uname`, `gname`, `devmajor`, `devminor`,
each key concatenated with its printed value. `tar.TypeDir` is the byte '5'. -/
def headerStr (e : TarEntry) : String :=
  let h := "name" ++ e.name
  let h := if e.typeflag = '5' && !(h.endsWith "/") then h ++ "/" else h
  h ++ "mode" ++ toString e.mode ++ "uid" ++ toString e.uid ++ "gid" ++ toString e.gid
    ++ "size" ++ toString e.size ++ "mtime" ++ toString e.mtime
    ++ "typeflag" ++ e.typeflag.toString ++ "linkname" ++ e.linkname
    ++ "uname" ++ e.uname ++ "gname" ++ e.gname
    ++ "devmajor" ++ toString e.devmajor ++ "devminor" ++ toString e.devminor

/-- Per-entry hex digest of `TarSum.Append` (part_001:101-112): a fresh SHA-256
over the header string, followed by the entry body iff `Size > 0`.  (The
`io.Copy` error branch re-hashes only the header; reads of the just-written
local blob do not fail in this model.) -/
def entryHash (shaHex : String → String) (e : TarEntry) : String :=
  if e.size > 0 then shaHex (headerStr e ++ e.body) else shaHex (headerStr e)

/-- State of a `TarSum` accumulator (part_001:66-83).  The `sha` field of the
Go struct is reset before every use, so it carries no state between calls and
is omitted. -/
structure TarSum where
  seed : String
  hashes : List String
deriving DecidableEq

/-- `NewTarSum`/`init` (part_001:72-83): empty hash list, remembered seed. -/
def newTarSum (seed : String) : TarSum :=
  { seed := seed, hashes := [] }

/-- `TarSum.Append` (part_001:85-113): record the entry's hex digest. -/
def TarSum.Append (shaHex : String → String) (t : TarSum) (e : TarEntry) : TarSum :=
  { t with hashes := t.hashes ++ [entryHash shaHex e] }

/-- `sort.Strings` (part_001:116): lexicographic sort of the recorded hex
digests (insertion sort; the result is characterised by being sorted and a
permutation of the input, which pins it down uniquely). -/
def sortHashes (l : List String) : List String :=
  List.insertionSort (fun a b => a ≤ b) l

/-- `TarSum.Compute` (part_001:115-125): sort the per-entry digests, hash the
seed followed by the sorted digests, and prefix with the literal
`"tarsum+sha256"`. -/
def TarSum.Compute (shaHex : String → String) (t : TarSum) : String :=
  "tarsum+sha256" ++ shaHex (t.seed ++ String.join (sortHashes t.hashes))

theorem foldl_Append_seed (shaHex : String → String) (l : List TarEntry) (t : TarSum) :
    (l.foldl (TarSum.Append shaHex) t).seed = t.seed := by
  induction l generalizing t with
  | nil => rfl
  | cons e rest ih => simp [List.foldl_cons, ih, TarSum.Append]

theorem foldl_Append_hashes (shaHex : String → String) (l : List TarEntry) (t : TarSum) :
    (l.foldl (TarSum.Append shaHex) t).hashes = t.hashes ++ l.map (entryHash shaHex) := by
  induction l generalizing t with
  | nil => simp
  | cons e rest ih => simp [List.foldl_cons, ih, TarSum.Append]

theorem sortHashes_perm_eq {l l' : List String} (h : l.Perm l') :
    sortHashes l = sortHashes l' :=
  List.eq_of_perm_of_sorted
    ((List.perm_insertionSort _ l).trans (h.trans (List.perm_insertionSort _ l').symm))
    (List.sorted_insertionSort _ l) (List.sorted_insertionSort _ l')

/-- Claim C4: for every seed and finite sequence of tar entries, appending the
entries to a TarSum in any order and then calling Compute yields the same
digest, namely `"tarsum+sha256"` (no separator) followed by the hex SHA-256 of
the seed bytes followed by the per-entry hex digests in lexicographically
sorted order. -/
theorem c4_tarsum_order_independent (shaHex : String → String) (seed : String)
    (l l' : List TarEntry) (h : l.Perm l') :
    (l'.foldl (TarSum.Append shaHex) (newTarSum seed)).Compute shaHex
      = "tarsum+sha256" ++ shaHex (seed ++ String.join (sortHashes (l.map (entryHash shaHex)))) := by
  rw [TarSum.Compute, foldl_Append_seed, foldl_Append_hashes]
  show "tarsum+sha256" ++ shaHex (seed ++ String.join (sortHashes ([] ++ l'.map (entryHash shaHex)))) = _
  rw [List.nil_append, sortHashes_perm_eq (List.Perm.map (entryHash shaHex) h.symm)]

/-- A concrete regular tar entry (used by witnesses). -/
def entA : TarEntry :=
  { name := "a", mode := 420, uid := 0, gid := 0, size := 2, mtime := 5,
    typeflag := '0', linkname := "", uname := "root", gname := "root",
    devmajor := 0, devminor := 0, body := "hi" }

/-- A concrete directory tar entry (used by witnesses). -/
def entB : TarEntry :=
  { name := "d", mode := 493, uid := 0, gid := 0, size := 0, mtime := 7,
    typeflag := '5', linkname := "", uname := "root", gname := "root",
    devmajor := 0, devminor := 0, body := "" }

theorem c4_witness :
    (([entB, entA] : List TarEntry).foldl (TarSum.Append (fun s => s)) (newTarSum "seed")).Compute (fun s => s)
      = "tarsum+sha256" ++ (fun s : String => s)
          ("seed" ++ String.join (sortHashes (([entA, entB] : List TarEntry).map (entryHash (fun s => s))))) :=
  c4_tarsum_order_independent (fun s => s) "seed" [entA, entB] [entB, entA] (List.Perm.swap entB entA [])

/-! ## TarFilesInfo (part_001:127-216) -/

/-- One element of the fixed-arity positional tuple
`[name, type, isDeleted, size, mtime, mode, uid, gid]` that `TarFilesInfo.Json`
emits per retained tar header (part_001:204-213). -/
structure FileTuple where
  name : String
  ftype : String
  isDeleted : Bool
  size : Int
  mtime : Int
  mode : Int
  uid : Int
  gid : Int
deriving DecidableEq

/-- `strings.TrimPrefix`: drop the prefix if present, else return unchanged. -/
def goTrimPre (s pre : String) : String :=
  if s.startsWith pre then s.drop pre.length else s

/-- Type-flag mapping of `TarFilesInfo.Json` (part_001:176-202); `TypeReg`='0',
`TypeRegA`=NUL, …, GNU long-name 'L', long-link 'K', sparse 'S'. -/
def fileTypeOf (c : Char) : String :=
  if c = '0' then "f" else if c = Char.ofNat 0 then "f"
  else if c = '1' then "l" else if c = '2' then "s"
  else if c = '3' then "c" else if c = '4' then "b"
  else if c = '5' then "d" else if c = '6' then "i"
  else if c = '7' then "t"
  else if c = 'L' then c.toString else if c = 'K' then c.toString
  else if c = 'S' then c.toString
  else "u"

/-- Loop body of `TarFilesInfo.Json` (part_001:158-213): rewrite the name,
set the deletion flag, skip (`continue`) when the rewritten name still starts
with `/.wh.`, otherwise emit the tuple. -/
def tupleOfHeader (h : TarEntry) : Option FileTuple :=
  let filename := h.name
  let isDeleted := false
  let filename := if filename = "." then "/" else filename
  let filename := if filename.startsWith "./" then "/" ++ goTrimPre filename "./" else filename
  let p := if filename.startsWith "/.wh." then ("/" ++ goTrimPre filename "/.wh.", true)
           else (filename, isDeleted)
  if p.1.startsWith "/.wh." then none
  else some { name := p.1, ftype := fileTypeOf h.typeflag, isDeleted := p.2,
              size := h.size, mtime := h.mtime, mode := h.mode, uid := h.uid, gid := h.gid }

/-- `TarFilesInfo.Json` (part_001:155-216): the loop over the recorded headers,
appending one tuple per non-skipped header.  (The surrounding `json.Marshal`
of the tuple list is Go-stdlib serialisation and is not modelled; the value
marshalled is exactly this list.) -/
def TarFilesInfoJson (headers : List TarEntry) : List FileTuple :=
  headers.foldl (fun acc h => match tupleOfHeader h with
                              | none => acc
                              | some t => acc ++ [t]) []

/-- Follows the spec's words for C6 (spec §4.4): name rewriting `.` → `/`,
leading `./` → leading `/`, leading `/.wh.` → leading `/` with the deletion
flag set, and an entry whose rewritten name again begins with `/.wh.` emits
no tuple at all. -/
def specTupleOfHeader (h : TarEntry) : Option FileTuple :=
  let first := if h.name = "." then "/"
               else if h.name.startsWith "./" then "/" ++ h.name.drop 2
               else h.name
  let rewr : String × Bool :=
    if first.startsWith "/.wh." then ("/" ++ first.drop 5, true) else (first, false)
  if rewr.1.startsWith "/.wh." then none
  else some { name := rewr.1, ftype := fileTypeOf h.typeflag, isDeleted := rewr.2,
              size := h.size, mtime := h.mtime, mode := h.mode, uid := h.uid, gid := h.gid }

theorem tupleOfHeader_eq_spec (h : TarEntry) : tupleOfHeader h = specTupleOfHeader h := by
  have hdot : ¬ ("/".startsWith "./") := by decide
  have l2 : ("./" : String).length = 2 := rfl
  have l5 : ("/.wh." : String).length = 5 := rfl
  unfold tupleOfHeader specTupleOfHeader goTrimPre
  by_cases h1 : h.name = "."
  · by_cases h3 : ("/" : String).startsWith "/.wh." <;> simp [h1, hdot, h3, l5]
  · simp only [if_neg h1]
    by_cases h2 : h.name.startsWith "./"
    · by_cases h3 : ("/" ++ h.name.drop 2).startsWith "/.wh." <;>
        simp [h2, l2, h3, l5]
    · by_cases h3 : h.name.startsWith "/.wh." <;> simp [h2, h3, l5]

theorem foldl_tuple_append (l : List TarEntry) (acc : List FileTuple) :
    l.foldl (fun acc h => match tupleOfHeader h with
                          | none => acc
                          | some t => acc ++ [t]) acc
      = acc ++ l.filterMap tupleOfHeader := by
  induction l generalizing acc with
  | nil => simp
  | cons h rest ih =>
    simp only [List.foldl_cons, List.filterMap_cons]
    cases ht : tupleOfHeader h with
    | none => simp [ht, ih]
    | some t => simp [ht, ih (acc ++ [t])]

/-- Claim C6: for every sequence of tar headers, `TarFilesInfo.Json` produces
one fixed-arity tuple `[name, type, isDeleted, size, mtime, mode, uid, gid]`
per retained header, where `.` becomes `/`, a leading `./` becomes a leading
`/`, a leading `/.wh.` becomes a leading `/` with `isDeleted` set, and an
entry whose rewritten name again begins with `/.wh.` is skipped entirely. -/
theorem c6_tar_files_listing (headers : List TarEntry) :
    TarFilesInfoJson headers = headers.filterMap specTupleOfHeader := by
  unfold TarFilesInfoJson
  rw [foldl_tuple_append]
  simp only [List.nil_append]
  have : tupleOfHeader = specTupleOfHeader := funext tupleOfHeader_eq_spec
  rw [this]

/-! ## Storage model

The `storage` package itself is not under src/; the handlers consume it as a
key→bytes store (spec §4.2).  Keys are modelled by `Path`. -/

/-- Modelled from the spec: the path scheme of the `storage` package (not in
src/), §4.1: one deterministic, distinct key per persisted artifact of §3. -/
inductive Path where
  | imageJson (id : String)
  | imageLayer (id : String)
  | imageMark (id : String)
  | imageChecksum (id : String)
  | imageAncestry (id : String)
  | imageFiles (id : String)
  | repoTag (ns repo tag : String)
  | repoJson (ns repo : String)
deriving DecidableEq

/-- A stored blob.  `raw` is ordinary bytes; `ids` is the JSON array of image
ids that the ancestry key holds; `files` is the serialised files listing.  The
non-`raw` constructors stand for the serialised form of the respective values
(the handlers only ever write `raw` blobs at json/mark/checksum/layer keys). -/
inductive Blob where
  | raw (s : String)
  | ids (l : List String)
  | files (l : List FileTuple)
deriving DecidableEq

/-- The byte view of a blob, as `Storage.Get` would return it.  For the
serialised constructors an explicit rendering is fixed; no claim depends on
it (handlers read bytes only from keys at which they store `raw` blobs). -/
def Blob.bytes : Blob → String
  | Blob.raw s => s
  | Blob.ids l => String.intercalate "," l
  | Blob.files _ => "files"

/-- A write event, used to observe the order of storage writes. -/
inductive Ev where
  | put (p : Path)
  | remove (p : Path)
deriving DecidableEq

def findB : List (Path × Blob) → Path → Option Blob
  | [], _ => none
  | (q, b) :: rest, p => if q = p then some b else findB rest p

def eraseB : List (Path × Blob) → Path → List (Path × Blob)
  | [], _ => []
  | (q, b) :: rest, p => if q = p then eraseB rest p else (q, b) :: eraseB rest p

/-- Storage plus the trace of write events of the current request. -/
structure St where
  store : List (Path × Blob)
  events : List Ev
deriving DecidableEq

/-- `Storage.Put` / the write half of `Storage.PutReader`: replace the blob at
the key (per-key atomic replace, spec §5) and record the event. -/
def St.putB (st : St) (p : Path) (b : Blob) : St :=
  { store := (p, b) :: eraseB st.store p, events := st.events ++ [Ev.put p] }

/-- `Storage.Remove`: drop the key and record the event. -/
def St.removeB (st : St) (p : Path) : St :=
  { store := eraseB st.store p, events := st.events ++ [Ev.remove p] }

/-- `Storage.Exists` (its error is ignored at every call site in the source). -/
def St.existsB (st : St) (p : Path) : Bool :=
  (findB st.store p).isSome

theorem findB_eraseB (l : List (Path × Blob)) (p q : Path) :
    findB (eraseB l p) q = if q = p then none else findB l q := by
  induction l with
  | nil => simp [eraseB, findB]
  | cons hd rest ih =>
    obtain ⟨r, b⟩ := hd
    by_cases hrp : r = p
    · subst hrp
      have her : eraseB ((r, b) :: rest) r = eraseB rest r := by simp [eraseB]
      rw [her, ih]
      by_cases hqp : q = r
      · simp [hqp]
      · simp only [if_neg hqp]
        have hrm : findB ((r, b) :: rest) q = if r = q then some b else findB rest q := rfl
        rw [hrm, if_neg (fun h : r = q => hqp h.symm)]
    · have her : eraseB ((r, b) :: rest) p = (r, b) :: eraseB rest p := by
        simp [eraseB, hrp]
      rw [her]
      by_cases hrq : r = q
      · have hqp : ¬ (q = p) := fun h => hrp (hrq.trans h)
        rw [if_neg hqp]
        have h1 : findB ((r, b) :: eraseB rest p) q = some b := by
          show (if r = q then some b else findB (eraseB rest p) q) = some b
          rw [if_pos hrq]
        have h2 : findB ((r, b) :: rest) q = some b := by
          show (if r = q then some b else findB rest q) = some b
          rw [if_pos hrq]
        rw [h1, h2]
      · have hfind : findB ((r, b) :: eraseB rest p) q = findB (eraseB rest p) q := by
          simp [findB, hrq]
        rw [hfind, ih]
        by_cases hqp : q = p
        · simp [hqp]
        · simp [hqp, findB, hrq]

theorem findB_putB (st : St) (p q : Path) (b : Blob) :
    findB (st.putB p b).store q = if q = p then some b else findB st.store q := by
  show findB ((p, b) :: eraseB st.store p) q = _
  by_cases hqp : q = p
  · simp [findB, hqp]
  · have hpq : ¬ (p = q) := fun h => hqp h.symm
    simp [findB, hpq, hqp, findB_eraseB]

theorem findB_removeB (st : St) (p q : Path) :
    findB (st.removeB p).store q = if q = p then none else findB st.store q := by
  simp [St.removeB, findB_eraseB]

/-- An HTTP response as the handlers shape it: status code, extra headers,
and the optional `checksum` cookie set via `http.SetCookie`. -/
structure HResp where
  status : Nat
  headers : List (String × String)
  cookie : Option String
deriving DecidableEq

/-- `a.response(w, …, code, EMPTY_HEADERS)` with no cookie. -/
def resp (c : Nat) : HResp :=
  { status := c, headers := [], cookie := none }

/-! ## Cookie construction (part_000:260-267) -/

/-- `strings.TrimSuffix(s, suffix)`: drop one trailing occurrence if present.
Stated over the character list, matching Go's byte-slice semantics. -/
def goTrimSuffix (s suffix : String) : String :=
  if suffix.data.isSuffixOf s.data
  then String.mk (s.data.take (s.data.length - suffix.data.length))
  else s

/-- The cookie value of `PutImageLayerHandler` (part_000:262-266): concatenate
each `sum + "|"` and trim the trailing separator.  (Go iterates a
`map[string]bool`; the iteration order is not observable in any claim, so the
model fixes the insertion order.) -/
def cookieOf (sums : List String) : String :=
  goTrimSuffix (sums.foldl (fun acc c => acc ++ c ++ "|") "") "|"

/-- Pipe-separated join with no trailing separator: the normal form the spec
describes for the cookie (`<d1>|<d2>|…`). -/
def pipeJoin : List String → String
  | [] => ""
  | [a] => a
  | a :: rest => a ++ "|" ++ pipeJoin rest

theorem foldl_cookie_acc (l : List String) (acc : String) :
    l.foldl (fun acc c => acc ++ c ++ "|") acc
      = acc ++ l.foldl (fun acc c => acc ++ c ++ "|") "" := by
  induction l generalizing acc with
  | nil => simp
  | cons a rest ih =>
    simp only [List.foldl_cons]
    rw [ih (acc ++ a ++ "|"), ih ("" ++ a ++ "|")]
    simp [String.append_assoc]

theorem goTrimSuffix_concat_sep (x : String) : goTrimSuffix (x ++ "|") "|" = x := by
  have hdata : (x ++ "|").data = x.data ++ ['|'] := by simp
  simp only [goTrimSuffix, hdata]
  rw [if_pos (by simp [List.isSuffixOf_iff_suffix])]
  have : (x.data ++ ['|']).length - ("|" : String).data.length = x.data.length := by simp
  rw [this, List.take_left' rfl]

theorem foldl_cookie_pipeJoin (l : List String) (a : String) :
    (a :: l).foldl (fun acc c => acc ++ c ++ "|") "" = pipeJoin (a :: l) ++ "|" := by
  induction l generalizing a with
  | nil =>
    show "" ++ a ++ "|" = a ++ "|"
    simp
  | cons b rest ih =>
    simp only [List.foldl_cons]
    rw [foldl_cookie_acc (rest) ("" ++ a ++ "|" ++ b ++ "|")]
    have hb := ih b
    simp only [List.foldl_cons] at hb
    rw [foldl_cookie_acc (rest) ("" ++ b ++ "|")] at hb
    have hpj : pipeJoin (a :: b :: rest) = a ++ "|" ++ pipeJoin (b :: rest) := rfl
    calc "" ++ a ++ "|" ++ b ++ "|" ++ rest.foldl (fun acc c => acc ++ c ++ "|") ""
        = a ++ "|" ++ ("" ++ b ++ "|" ++ rest.foldl (fun acc c => acc ++ c ++ "|") "") := by
          simp [String.append_assoc]
      _ = a ++ "|" ++ (pipeJoin (b :: rest) ++ "|") := by rw [hb]
      _ = pipeJoin (a :: b :: rest) ++ "|" := by
          rw [hpj]
          simp [String.append_assoc]

theorem cookieOf_eq_pipeJoin (l : List String) : cookieOf l = pipeJoin l := by
  cases l with
  | nil => rfl
  | cons a rest =>
    unfold cookieOf
    rw [foldl_cookie_pipeJoin, goTrimSuffix_concat_sep]

/-! ## The layers package helpers that are not under src/ -/

/-- Modelled from the spec: `layers.StoreChecksum` (referenced at
part_000:346,441 but not in src/).  Spec §4.5: persist the header value
verbatim under the image's checksum key. -/
def StoreChecksum (st : St) (imageID checksum : String) : St :=
  st.putB (Path.imageChecksum imageID) (Blob.raw checksum)

/-- Modelled from the spec: `layers.GenerateAncestry` (referenced at
part_000:393 but not in src/).  Spec §4.6: with an empty parent persist
`[imageID]`; otherwise read the parent's ancestry as a JSON array, prepend
`imageID` and persist; failure to read or decode the parent's ancestry is
fatal to the put (`none`). -/
def GenerateAncestry (st : St) (imageID parentID : String) : Option St :=
  if parentID = "" then some (st.putB (Path.imageAncestry imageID) (Blob.ids [imageID]))
  else
    match findB st.store (Path.imageAncestry parentID) with
    | some (Blob.ids l) => some (st.putB (Path.imageAncestry imageID) (Blob.ids (imageID :: l)))
    | _ => none

/-- Modelled from the spec: `layers.SetImageFilesCache` (referenced at
part_000:256 but not in src/).  Spec §4.8: persist the files listing under
the image's files cache key. -/
def SetImageFilesCache (st : St) (imageID : String) (tuples : List FileTuple) : St :=
  st.putB (Path.imageFiles imageID) (Blob.files tuples)

/-! ## PutImageLayerHandler (part_000:217-282)

The handler receives the request stream and, through the `PutReader`
finalizer `TarInfo.Load` (part_001:39-64), the result of parsing that stream
as a (possibly gzipped) tar: `tarParse = some entries` when the stdlib
gzip/tar readers deliver the entry sequence, `none` when they error
(`TarInfo.Error` set).  `shaHex` abstracts `hex.EncodeToString ∘ sha256`. -/

/-- The candidate-digest set of part_000:249-258: the SHA-256 of the json
bytes followed by the stream, plus — when the tar parsed — the tarsum seeded
with the json bytes. -/
def layerCandidates (shaHex : String → String) (jsonContent stream : String)
    (tarParse : Option (List TarEntry)) : List String :=
  let shaDigest := "sha256:" ++ shaHex (jsonContent ++ stream)
  match tarParse with
  | none => [shaDigest]
  | some entries =>
      [shaDigest, ((entries.foldl (TarSum.Append shaHex) (newTarSum jsonContent)).Compute shaHex)]

/-- `PutImageLayerHandler` (part_000:217-282).  Storage writes always succeed
in this model; `Storage.Remove` fails exactly when the key is absent (its
error is checked at part_000:276). -/
def PutImageLayerHandler (shaHex : String → String) (st : St) (imageID : String)
    (stream : String) (tarParse : Option (List TarEntry)) : HResp × St :=
  match findB st.store (Path.imageJson imageID) with
  | none => (resp 404, st)
  | some jsonBlob =>
    let jsonContent := jsonBlob.bytes
    if st.existsB (Path.imageLayer imageID) && !(st.existsB (Path.imageMark imageID))
    then (resp 409, st)
    else
      let st1 := st.putB (Path.imageLayer imageID) (Blob.raw stream)
      let st2 := match tarParse with
                 | none => st1
                 | some entries => SetImageFilesCache st1 imageID (TarFilesInfoJson entries)
      let checksums := layerCandidates shaHex jsonContent stream tarParse
      match findB st2.store (Path.imageChecksum imageID) with
      | none =>
          ({ status := 200, headers := [], cookie := some (cookieOf checksums) }, st2)
      | some storedSum =>
          if storedSum.bytes ∈ checksums then
            if st2.existsB (Path.imageMark imageID)
            then (resp 200, st2.removeB (Path.imageMark imageID))
            else (resp 500, st2)
          else (resp 400, st2)

/-! ## PutImageChecksumHandler (part_000:415-454) -/

/-- `strings.Split(s, "|")` (part_000:444, `COOKIE_SEPARATOR` is the single
byte `|`): split on every occurrence of the separator, keeping empty parts;
the split of the empty string is `[""]`. -/
def splitPipeAux : List Char → List Char → List String
  | [], acc => [String.mk acc.reverse]
  | c :: rest, acc =>
      if c = '|' then String.mk acc.reverse :: splitPipeAux rest []
      else splitPipeAux rest (c :: acc)

def splitPipe (s : String) : List String :=
  splitPipeAux s.data []

/-- `PutImageChecksumHandler` (part_000:415-454).  `checksumHeader` is the
`X-Docker-Checksum` request header (`""` when absent), `cookie` the value of
the `checksum` request cookie (`none` when the cookie is missing). -/
def PutImageChecksumHandler (st : St) (imageID : String) (checksumHeader : String)
    (cookie : Option String) : HResp × St :=
  if checksumHeader = "" then (resp 400, st)
  else
    match cookie with
    | none => (resp 400, st)
    | some cookieVal =>
      if !(st.existsB (Path.imageJson imageID)) then (resp 404, st)
      else if !(st.existsB (Path.imageMark imageID)) then (resp 409, st)
      else
        let st1 := StoreChecksum st imageID checksumHeader
        if checksumHeader ∈ splitPipe cookieVal then
          (resp 200, st1.removeB (Path.imageMark imageID))
        else (resp 400, st1)

/-! ## PutImageJsonHandler (part_000:318-398) -/

/-- A decoded JSON value of the request body, as far as the handler inspects
it: `json.Unmarshal` into `map[string]interface{}` followed by `.(string)`
casts on `id` and `parent`.  `other` is any non-string JSON value. -/
inductive JVal where
  | str (s : String)
  | other
deriving DecidableEq

/-- First-match association lookup (Go map read). -/
def alookup {α : Type} : List (String × α) → String → Option α
  | [], _ => none
  | (k, v) :: rest, key => if k = key then some v else alookup rest key

/-- The checksum step of `PutImageJsonHandler` (part_000:342-349): with no
`X-Docker-Checksum` header remove any stored checksum (retry-safe), otherwise
persist the header value via `StoreChecksum` (whose error is not checked). -/
def jsonChecksumStep (st : St) (imageID checksumHeader : String) : St :=
  if checksumHeader = ""
  then st.removeB (Path.imageChecksum imageID)
  else StoreChecksum st imageID checksumHeader

/-- Tail of `PutImageJsonHandler` from the already-exists check on
(part_000:376-397): conflict check, then write `mark`, then `json`, then
generate the ancestry. -/
def putJsonFinish (st : St) (imageID rawBody parentID : String) : HResp × St :=
  if st.existsB (Path.imageJson imageID) && !(st.existsB (Path.imageMark imageID))
  then (resp 409, st)
  else
    match GenerateAncestry ((st.putB (Path.imageMark imageID) (Blob.raw "true")).putB
        (Path.imageJson imageID) (Blob.raw rawBody)) imageID parentID with
    | none => (resp 500, (st.putB (Path.imageMark imageID) (Blob.raw "true")).putB
        (Path.imageJson imageID) (Blob.raw rawBody))
    | some st4 => (resp 200, st4)

/-- `PutImageJsonHandler` (part_000:318-398).  `rawBody` is the request body,
`parsed` the result of `json.Unmarshal` on it (`none` = invalid JSON), and
`checksumHeader` the `X-Docker-Checksum` header (`""` when absent).  Order of
the source: parse, require `id` present, store/remove the checksum, require
`id` a string equal to the path image id, validate `parent`, conflict check,
then `mark`/`json`/ancestry writes. -/
def PutImageJsonHandler (st : St) (imageID : String) (rawBody : String)
    (parsed : Option (List (String × JVal))) (checksumHeader : String) : HResp × St :=
  match parsed with
  | none => (resp 400, st)
  | some data =>
    match alookup data "id" with
    | none => (resp 400, st)
    | some idVal =>
      match idVal with
      | JVal.other => (resp 400, jsonChecksumStep st imageID checksumHeader)
      | JVal.str dataID =>
        if imageID ≠ dataID then (resp 400, jsonChecksumStep st imageID checksumHeader)
        else
          match alookup data "parent" with
          | some JVal.other => (resp 400, jsonChecksumStep st imageID checksumHeader)
          | some (JVal.str p) =>
              if !((jsonChecksumStep st imageID checksumHeader).existsB (Path.imageJson p))
              then (resp 400, jsonChecksumStep st imageID checksumHeader)
              else putJsonFinish (jsonChecksumStep st imageID checksumHeader) imageID rawBody p
          | none => putJsonFinish (jsonChecksumStep st imageID checksumHeader) imageID rawBody ""

/-! ## Caching headers and conditional GET (caching.go) -/

/-- Zero-padded two-digit print, the `01` (stdZeroMonth) chunk of Go's
time layout language. -/
def pad2 (n : Nat) : String :=
  if n < 10 then "0" ++ toString n else toString n

/-- The `Jan` (stdMonth) chunk of Go's time layout language. -/
def monthAbbr : Nat → String
  | 1 => "Jan" | 2 => "Feb" | 3 => "Mar" | 4 => "Apr" | 5 => "May" | 6 => "Jun"
  | 7 => "Jul" | 8 => "Aug" | 9 => "Sep" | 10 => "Oct" | 11 => "Nov" | 12 => "Dec"
  | _ => "???"

/-- The `Expires` header of `DefaultCacheHeaders` (caching.go:12):
`t.Format("Thu, 01 Jan 1970 00:00:00 GMT")` where `t = now.UTC().Add(365*24h)`.
The layout string is parsed by Go's reference-time chunking, in which
`"Thu, "` is literal, `01` is the zero-padded month, `Jan` is the month name,
the `1` of `1970` is the unpadded month, `970` and the rest
(` 00:00:00 GMT`) are literal.  The output therefore only depends on the
month `m` of `t`:
`"Thu, " ++ pad2 m ++ " " ++ monthAbbr m ++ " " ++ toString m ++ "970 00:00:00 GMT"`. -/
def expiresString (m : Nat) : String :=
  "Thu, " ++ pad2 m ++ " " ++ monthAbbr m ++ " " ++ toString m ++ "970 00:00:00 GMT"

/-- `DefaultCacheHeaders` (caching.go:9-15); `m` is the month of
`now.UTC().Add(365*24*time.Hour)`.  `int64(365*24*time.Hour.Seconds())`
is `365*24*3600`. -/
def DefaultCacheHeaders (m : Nat) : List (String × String) :=
  [("Cache-Control", "public, max-age=" ++ toString (365*24*3600)),
   ("Expires", expiresString m),
   ("Last-Modified", "Thu, 01 Jan 1970 00:00:00 GMT")]

/-- A request as the caching wrapper sees it: the values of its
`If-Modified-Since` headers. -/
structure CReq where
  imsHeaders : List String
deriving DecidableEq

/-- `CheckIfModifiedSince` (caching.go:17-26): when the request carries at
least one `If-Modified-Since` header (of any value), answer 304 with the
default cache headers without invoking the wrapped handler. -/
def CheckIfModifiedSince (m : Nat) (handler : CReq → St → HResp × St) :
    CReq → St → HResp × St :=
  fun r st =>
    if r.imsHeaders.length > 0
    then ({ status := 304, headers := DefaultCacheHeaders m, cookie := none }, st)
    else handler r st

/-! ## GetImageJsonHandler (part_000:288-313) -/

/-- `GetImageJsonHandler` (part_000:288-313).  `checksumReadFails` injects the
I/O outcome of the `Storage.Get` on the checksum key at part_000:307 (the
store itself cannot fail in this model, but the handler's branch is on the
error of that read); per spec §7 the bytes returned alongside such an error
are empty. -/
def getImageHeaders (st : St) (imageID : String) (m : Nat)
    (checksumReadFails : Bool) : List (String × String) :=
  (DefaultCacheHeaders m
    ++ (match findB st.store (Path.imageLayer imageID) with
        | some b => [("X-Docker-Size", toString b.bytes.length)]
        | none => []))
    ++ (if st.existsB (Path.imageChecksum imageID) then
          if checksumReadFails then [("X-Docker-Checksum", "")] else []
        else [])

def GetImageJsonHandler (st : St) (imageID : String) (m : Nat)
    (checksumReadFails : Bool) : HResp × St :=
  match findB st.store (Path.imageJson imageID) with
  | none => (resp 404, st)
  | some _data =>
    ({ status := 200, headers := getImageHeaders st imageID m checksumReadFails,
       cookie := none }, st)

/-! ## CreateRepoJson (part_000:133-161) -/

/-- A repository-metadata JSON value: `last_update` is a Unix second, the
recognised User-Agent fields are strings. -/
inductive RVal where
  | str (s : String)
  | int (n : Int)
deriving DecidableEq

/-- `strings.ToLower` (part_000:152,155,158): ASCII lower-casing, modelled
character-wise. -/
def goToLower (str : String) : String :=
  String.mk (str.data.map Char.toLower)

/-- The Go map `uaMap` of part_000:138-144, built by overwriting assignment,
modelled by prepending with first-match lookup. -/
def uaMapOf (uaMatches : List (String × String)) : List (String × String) :=
  uaMatches.foldl (fun m kv => (kv.1, kv.2) :: m) []

/-- `CreateRepoJson` (part_000:133-161).  `uaMatches` are the
`(group1, group2)` capture pairs of
`USER_AGENT_REGEXP.FindAllStringSubmatch(userAgent, -1)` (the regular
expression itself lives outside src/; by the semantics of
`FindAllStringSubmatch` every capture is a substring of `userAgent`), and
`now` is `time.Now().Unix()`. -/
def CreateRepoJson (now : Int) (uaMatches : List (String × String)) : List (String × RVal) :=
  [("last_update", RVal.int now)]
    ++ (match alookup (uaMapOf uaMatches) "docker_version" with
        | some v => [("docker_version", RVal.str v)]
        | none => [])
    ++ (match alookup (uaMapOf uaMatches) "go" with
        | some v => [("docker_go_version", RVal.str v)]
        | none => [])
    ++ (match alookup (uaMapOf uaMatches) "arch" with
        | some v => [("arch", RVal.str (goToLower v))]
        | none => [])
    ++ (match alookup (uaMapOf uaMatches) "kernel" with
        | some v => [("kernel", RVal.str (goToLower v))]
        | none => [])
    ++ (match alookup (uaMapOf uaMatches) "os" with
        | some v => [("os", RVal.str (goToLower v))]
        | none => [])

/-! ## Claim C1 -/

/-- A state with only an image json blob: json present, mark/layer/checksum
absent (reachable through the API: PutJson, then PutChecksum with a matching
fabricated cookie, then a second header-less PutJson whose 409 has already
removed the checksum blob). -/
def stOnlyJson : St :=
  { store := [(Path.imageJson "abc", Blob.raw "cfg")], events := [] }

/-- Claim C1 as stated is false: on an image whose json blob exists and whose
checksum blob is absent but whose mark blob is also absent, `PutLayer`
succeeds with 200 and a cookie, yet leaves no mark blob — the upload does not
leave the image in LAYER_STAGED. -/
theorem c1_counterexample :
    (PutImageLayerHandler (fun s => s) stOnlyJson "abc" "body" none).1.status = 200
      ∧ findB (PutImageLayerHandler (fun s => s) stOnlyJson "abc" "body" none).2.store
          (Path.imageMark "abc") = none := by
  constructor <;> rfl

/-- Claim C1, amended: for every PutLayer request on an image whose json blob
exists, whose mark blob is present, and for which no checksum blob is stored,
the upload succeeds with 200, leaves the mark blob present (LAYER_STAGED),
sets a `checksum` cookie that is the pipe-separated join (no trailing
separator) of the candidate-digest set, which contains the digest
`"sha256:" ++ hex(sha256(json ++ stream))` and, when the stream parses as a
(possibly gzipped) tar, also the tarsum digest. -/
theorem c1_put_layer_staged (shaHex : String → String) (st : St)
    (imageID stream : String) (tarParse : Option (List TarEntry)) (jb mb : Blob)
    (hjson : findB st.store (Path.imageJson imageID) = some jb)
    (hmark : findB st.store (Path.imageMark imageID) = some mb)
    (hsum : findB st.store (Path.imageChecksum imageID) = none) :
    (PutImageLayerHandler shaHex st imageID stream tarParse).1
        = { status := 200, headers := [],
            cookie := some (pipeJoin (layerCandidates shaHex jb.bytes stream tarParse)) }
      ∧ findB (PutImageLayerHandler shaHex st imageID stream tarParse).2.store
          (Path.imageMark imageID) = some mb
      ∧ ("sha256:" ++ shaHex (jb.bytes ++ stream))
          ∈ layerCandidates shaHex jb.bytes stream tarParse
      ∧ (∀ es, tarParse = some es →
          ((es.foldl (TarSum.Append shaHex) (newTarSum jb.bytes)).Compute shaHex)
            ∈ layerCandidates shaHex jb.bytes stream tarParse) := by
  have hmarkE : St.existsB st (Path.imageMark imageID) = true := by
    simp [St.existsB, hmark]
  unfold PutImageLayerHandler
  rw [hjson]
  simp only [hmarkE, Bool.not_true, Bool.and_false, Bool.false_eq_true, if_false]
  cases tarParse with
  | none =>
    have hck : findB (St.putB st (Path.imageLayer imageID) (Blob.raw stream)).store
        (Path.imageChecksum imageID) = none := by
      rw [findB_putB]
      simp [hsum]
    simp only [hck]
    refine ⟨by rw [cookieOf_eq_pipeJoin], ?_, ?_, ?_⟩
    · rw [findB_putB]
      simp [hmark]
    · simp [layerCandidates]
    · intro es hcontra
      exact absurd hcontra (by simp)
  | some es =>
    have hck : findB (SetImageFilesCache (St.putB st (Path.imageLayer imageID) (Blob.raw stream))
        imageID (TarFilesInfoJson es)).store (Path.imageChecksum imageID) = none := by
      unfold SetImageFilesCache
      rw [findB_putB]
      simp only [findB_putB]
      simp [hsum]
    simp only [hck]
    refine ⟨by rw [cookieOf_eq_pipeJoin], ?_, ?_, ?_⟩
    · unfold SetImageFilesCache
      rw [findB_putB]
      simp only [findB_putB]
      simp [hmark]
    · simp [layerCandidates]
    · intro es2 hes2
      have : es2 = es := by injection hes2 with h2; exact h2.symm
      subst this
      simp [layerCandidates]

/-- A LAYER-upload-ready state: json and mark present, nothing else. -/
def stStaged : St :=
  { store := [(Path.imageJson "abc", Blob.raw "cfg"),
              (Path.imageMark "abc", Blob.raw "true")], events := [] }

theorem c1_witness :
    (PutImageLayerHandler (fun s => s) stStaged "abc" "body" none).1
        = { status := 200, headers := [],
            cookie := some (pipeJoin (layerCandidates (fun s => s) (Blob.raw "cfg").bytes "body" none)) }
      ∧ findB (PutImageLayerHandler (fun s => s) stStaged "abc" "body" none).2.store
          (Path.imageMark "abc") = some (Blob.raw "true")
      ∧ ("sha256:" ++ (fun s : String => s) ((Blob.raw "cfg").bytes ++ "body"))
          ∈ layerCandidates (fun s => s) (Blob.raw "cfg").bytes "body" none
      ∧ (∀ es, (none : Option (List TarEntry)) = some es →
          ((es.foldl (TarSum.Append (fun s => s)) (newTarSum (Blob.raw "cfg").bytes)).Compute (fun s => s))
            ∈ layerCandidates (fun s => s) (Blob.raw "cfg").bytes "body" none) :=
  c1_put_layer_staged (fun s => s) stStaged "abc" "body" none (Blob.raw "cfg") (Blob.raw "true")
    (by decide) (by decide) (by decide)

/-! ## Claim C5 -/

/-- Claim C5: a PutLayer whose stream fails to parse as a tar (TarError set by
the finalizer, `tarParse = none`) does not fail on that account: the layer
blob is stored, the files-listing cache is left untouched, the candidate set
contains only the SHA-256 digest, and the response is exactly the outcome of
the ordinary checksum-finalization logic on that singleton candidate set
(cookie + 200 with no stored checksum; 200/mark-removal or 400 according to
whether the stored checksum equals the SHA-256 digest). -/
theorem c5_tar_error_put_layer (shaHex : String → String) (st : St)
    (imageID stream : String) (jb mb : Blob)
    (hjson : findB st.store (Path.imageJson imageID) = some jb)
    (hmark : findB st.store (Path.imageMark imageID) = some mb) :
    findB (PutImageLayerHandler shaHex st imageID stream none).2.store
        (Path.imageLayer imageID) = some (Blob.raw stream)
      ∧ findB (PutImageLayerHandler shaHex st imageID stream none).2.store
          (Path.imageFiles imageID) = findB st.store (Path.imageFiles imageID)
      ∧ layerCandidates shaHex jb.bytes stream none
          = ["sha256:" ++ shaHex (jb.bytes ++ stream)]
      ∧ (findB st.store (Path.imageChecksum imageID) = none →
          (PutImageLayerHandler shaHex st imageID stream none).1
            = { status := 200, headers := [],
                cookie := some ("sha256:" ++ shaHex (jb.bytes ++ stream)) })
      ∧ (∀ cb, findB st.store (Path.imageChecksum imageID) = some cb →
          (cb.bytes = "sha256:" ++ shaHex (jb.bytes ++ stream) →
             (PutImageLayerHandler shaHex st imageID stream none).1 = resp 200
               ∧ findB (PutImageLayerHandler shaHex st imageID stream none).2.store
                   (Path.imageMark imageID) = none)
          ∧ (cb.bytes ≠ "sha256:" ++ shaHex (jb.bytes ++ stream) →
             (PutImageLayerHandler shaHex st imageID stream none).1 = resp 400
               ∧ findB (PutImageLayerHandler shaHex st imageID stream none).2.store
                   (Path.imageMark imageID) = some mb)) := by
  have hmarkE : St.existsB st (Path.imageMark imageID) = true := by
    simp [St.existsB, hmark]
  have hckput : findB (St.putB st (Path.imageLayer imageID) (Blob.raw stream)).store
      (Path.imageChecksum imageID) = findB st.store (Path.imageChecksum imageID) := by
    rw [findB_putB]
    simp
  have hmarkput : findB (St.putB st (Path.imageLayer imageID) (Blob.raw stream)).store
      (Path.imageMark imageID) = some mb := by
    rw [findB_putB]
    simp [hmark]
  have hmarkputE : St.existsB (St.putB st (Path.imageLayer imageID) (Blob.raw stream))
      (Path.imageMark imageID) = true := by
    simp [St.existsB, hmarkput]
  unfold PutImageLayerHandler
  rw [hjson]
  simp only [hmarkE, Bool.not_true, Bool.and_false, Bool.false_eq_true, if_false]
  cases hcs : findB st.store (Path.imageChecksum imageID) with
  | none =>
    simp only [hckput, hcs]
    refine ⟨?_, ?_, rfl, ?_, ?_⟩
    · rw [findB_putB]
      simp
    · rw [findB_putB]
      simp
    · intro _
      rw [cookieOf_eq_pipeJoin]
      rfl
    · intro cb hcb
      exact Option.noConfusion hcb
  | some cb0 =>
    simp only [hckput, hcs]
    by_cases hbeq : cb0.bytes = "sha256:" ++ shaHex (jb.bytes ++ stream)
    · have hmem : cb0.bytes ∈ layerCandidates shaHex jb.bytes stream none := by
        simp [layerCandidates, hbeq]
      rw [if_pos hmem, if_pos hmarkputE]
      refine ⟨?_, ?_, rfl, ?_, ?_⟩
      · show findB ((St.putB st (Path.imageLayer imageID) (Blob.raw stream)).removeB
            (Path.imageMark imageID)).store (Path.imageLayer imageID) = some (Blob.raw stream)
        rw [findB_removeB]
        simp only [findB_putB]
        simp
      · show findB ((St.putB st (Path.imageLayer imageID) (Blob.raw stream)).removeB
            (Path.imageMark imageID)).store (Path.imageFiles imageID)
            = findB st.store (Path.imageFiles imageID)
        rw [findB_removeB]
        simp only [findB_putB]
        simp
      · intro hcontra
        exact Option.noConfusion hcontra
      · intro cb hcb
        have hcb0 : cb = cb0 := by
          injection hcb with h2
          exact h2.symm
        subst hcb0
        constructor
        · intro _
          refine ⟨rfl, ?_⟩
          show findB ((St.putB st (Path.imageLayer imageID) (Blob.raw stream)).removeB
              (Path.imageMark imageID)).store (Path.imageMark imageID) = none
          rw [findB_removeB]
          simp
        · intro hne
          exact absurd hbeq hne
    · have hmem : cb0.bytes ∉ layerCandidates shaHex jb.bytes stream none := by
        simp [layerCandidates, hbeq]
      rw [if_neg hmem]
      refine ⟨?_, ?_, rfl, ?_, ?_⟩
      · show findB (St.putB st (Path.imageLayer imageID) (Blob.raw stream)).store
            (Path.imageLayer imageID) = some (Blob.raw stream)
        rw [findB_putB]
        simp
      · show findB (St.putB st (Path.imageLayer imageID) (Blob.raw stream)).store
            (Path.imageFiles imageID) = findB st.store (Path.imageFiles imageID)
        rw [findB_putB]
        simp
      · intro hcontra
        exact Option.noConfusion hcontra
      · intro cb hcb
        have hcb0 : cb = cb0 := by
          injection hcb with h2
          exact h2.symm
        subst hcb0
        constructor
        · intro heq
          exact absurd heq hbeq
        · intro _
          exact ⟨rfl, hmarkput⟩

theorem c5_witness :
    findB (PutImageLayerHandler (fun s => s) stStaged "abc" "body" none).2.store
        (Path.imageLayer "abc") = some (Blob.raw "body")
      ∧ findB (PutImageLayerHandler (fun s => s) stStaged "abc" "body" none).2.store
          (Path.imageFiles "abc") = findB stStaged.store (Path.imageFiles "abc")
      ∧ layerCandidates (fun s => s) (Blob.raw "cfg").bytes "body" none
          = ["sha256:" ++ (fun s : String => s) ((Blob.raw "cfg").bytes ++ "body")]
      ∧ (findB stStaged.store (Path.imageChecksum "abc") = none →
          (PutImageLayerHandler (fun s => s) stStaged "abc" "body" none).1
            = { status := 200, headers := [],
                cookie := some ("sha256:" ++ (fun s : String => s) ((Blob.raw "cfg").bytes ++ "body")) })
      ∧ (∀ cb, findB stStaged.store (Path.imageChecksum "abc") = some cb →
          (cb.bytes = "sha256:" ++ (fun s : String => s) ((Blob.raw "cfg").bytes ++ "body") →
             (PutImageLayerHandler (fun s => s) stStaged "abc" "body" none).1 = resp 200
               ∧ findB (PutImageLayerHandler (fun s => s) stStaged "abc" "body" none).2.store
                   (Path.imageMark "abc") = none)
          ∧ (cb.bytes ≠ "sha256:" ++ (fun s : String => s) ((Blob.raw "cfg").bytes ++ "body") →
             (PutImageLayerHandler (fun s => s) stStaged "abc" "body" none).1 = resp 400
               ∧ findB (PutImageLayerHandler (fun s => s) stStaged "abc" "body" none).2.store
                   (Path.imageMark "abc") = some (Blob.raw "true"))) :=
  c5_tar_error_put_layer (fun s => s) stStaged "abc" "body" (Blob.raw "cfg") (Blob.raw "true")
    (by decide) (by decide)

/-! ## Claim C2 -/

/-- Claim C2 as stated is false: on a state with json and mark present and no
stored checksum, a PutChecksum whose header is not in the cookie's set answers
400 — but the checksum blob is no longer unchanged: `StoreChecksum` ran before
the membership check, so the header value is now stored. -/
theorem c2_counterexample :
    (PutImageChecksumHandler stStaged "abc" "sha256:aaa" (some "sha256:bbb")).1.status = 400
      ∧ findB stStaged.store (Path.imageChecksum "abc") = none
      ∧ findB (PutImageChecksumHandler stStaged "abc" "sha256:aaa" (some "sha256:bbb")).2.store
          (Path.imageChecksum "abc") = some (Blob.raw "sha256:aaa") := by
  refine ⟨?_, rfl, ?_⟩ <;> rfl

/-- Claim C2, amended: on an image whose json and mark blobs exist, a
PutChecksum carrying a non-empty `X-Docker-Checksum` header that is not a
member of the pipe-separated set parsed from the checksum cookie responds 400
and leaves the mark blob (and everything except the checksum blob) unchanged,
but the checksum blob has been overwritten with the header value before the
check ran. -/
theorem c2_checksum_mismatch (st : St) (imageID hdr cval : String) (jb mb : Blob)
    (hjson : findB st.store (Path.imageJson imageID) = some jb)
    (hmark : findB st.store (Path.imageMark imageID) = some mb)
    (hne : hdr ≠ "")
    (hnotin : hdr ∉ splitPipe cval) :
    (PutImageChecksumHandler st imageID hdr (some cval)).1 = resp 400
      ∧ (PutImageChecksumHandler st imageID hdr (some cval)).2
          = StoreChecksum st imageID hdr
      ∧ findB (PutImageChecksumHandler st imageID hdr (some cval)).2.store
          (Path.imageMark imageID) = some mb
      ∧ findB (PutImageChecksumHandler st imageID hdr (some cval)).2.store
          (Path.imageChecksum imageID) = some (Blob.raw hdr) := by
  have hjsonE : St.existsB st (Path.imageJson imageID) = true := by
    simp [St.existsB, hjson]
  have hmarkE : St.existsB st (Path.imageMark imageID) = true := by
    simp [St.existsB, hmark]
  unfold PutImageChecksumHandler
  rw [if_neg hne]
  simp only [hjsonE, hmarkE, Bool.not_true, Bool.false_eq_true, if_false]
  rw [if_neg hnotin]
  refine ⟨rfl, rfl, ?_, ?_⟩
  · show findB (StoreChecksum st imageID hdr).store (Path.imageMark imageID) = some mb
    unfold StoreChecksum
    rw [findB_putB]
    simp [hmark]
  · show findB (StoreChecksum st imageID hdr).store (Path.imageChecksum imageID)
        = some (Blob.raw hdr)
    unfold StoreChecksum
    rw [findB_putB]
    simp

theorem c2_witness :
    (PutImageChecksumHandler stStaged "abc" "sha256:aaa" (some "sha256:bbb")).1 = resp 400
      ∧ (PutImageChecksumHandler stStaged "abc" "sha256:aaa" (some "sha256:bbb")).2
          = StoreChecksum stStaged "abc" "sha256:aaa"
      ∧ findB (PutImageChecksumHandler stStaged "abc" "sha256:aaa" (some "sha256:bbb")).2.store
          (Path.imageMark "abc") = some (Blob.raw "true")
      ∧ findB (PutImageChecksumHandler stStaged "abc" "sha256:aaa" (some "sha256:bbb")).2.store
          (Path.imageChecksum "abc") = some (Blob.raw "sha256:aaa") :=
  c2_checksum_mismatch stStaged "abc" "sha256:aaa" "sha256:bbb" (Blob.raw "cfg") (Blob.raw "true")
    (by decide) (by decide) (by decide) (by decide)

/-! ## Claim C3 -/

/-- The write events of a request that touch the image's mark, json, or
ancestry keys, in order. -/
def keyEvents (imageID : String) (evs : List Ev) : List Ev :=
  evs.filter (fun e => e == Ev.put (Path.imageMark imageID)
                    || e == Ev.put (Path.imageJson imageID)
                    || e == Ev.put (Path.imageAncestry imageID))

theorem putJsonFinish_success (st1 : St) (imageID rawBody parentID : String)
    (h200 : (putJsonFinish st1 imageID rawBody parentID).1.status = 200) :
    findB (putJsonFinish st1 imageID rawBody parentID).2.store (Path.imageJson imageID)
        = some (Blob.raw rawBody)
    ∧ findB (putJsonFinish st1 imageID rawBody parentID).2.store (Path.imageMark imageID)
        = some (Blob.raw "true")
    ∧ (∃ rest, findB (putJsonFinish st1 imageID rawBody parentID).2.store
          (Path.imageAncestry imageID) = some (Blob.ids (imageID :: rest))
        ∧ (parentID = "" ∧ rest = []
            ∨ findB st1.store (Path.imageAncestry parentID) = some (Blob.ids rest)))
    ∧ (putJsonFinish st1 imageID rawBody parentID).2.events
        = st1.events ++ [Ev.put (Path.imageMark imageID), Ev.put (Path.imageJson imageID),
                         Ev.put (Path.imageAncestry imageID)] := by
  unfold putJsonFinish at h200 ⊢
  by_cases hc : (St.existsB st1 (Path.imageJson imageID)
      && !(St.existsB st1 (Path.imageMark imageID))) = true
  · rw [if_pos hc] at h200
    simp [resp] at h200
  · rw [if_neg hc] at h200 ⊢
    unfold GenerateAncestry at h200 ⊢
    by_cases hp : parentID = ""
    · rw [if_pos hp] at h200 ⊢
      refine ⟨?_, ?_, ⟨[], ?_, Or.inl ⟨hp, rfl⟩⟩, ?_⟩
      · rw [findB_putB]
        simp only [findB_putB]
        simp
      · rw [findB_putB]
        simp only [findB_putB]
        simp
      · rw [findB_putB]
        simp
      · simp [St.putB, List.append_assoc]
    · rw [if_neg hp] at h200 ⊢
      cases hanc : findB ((st1.putB (Path.imageMark imageID) (Blob.raw "true")).putB
          (Path.imageJson imageID) (Blob.raw rawBody)).store (Path.imageAncestry parentID) with
      | none =>
        rw [hanc] at h200
        simp [resp] at h200
      | some ab =>
        rw [hanc] at h200
        cases ab with
        | raw sx => simp [resp] at h200
        | files lx => simp [resp] at h200
        | ids l =>
          have hanc1 : findB st1.store (Path.imageAncestry parentID) = some (Blob.ids l) := by
            rw [findB_putB, findB_putB] at hanc
            simpa using hanc
          refine ⟨?_, ?_, ⟨l, ?_, Or.inr hanc1⟩, ?_⟩
          · rw [findB_putB]
            simp only [findB_putB]
            simp
          · rw [findB_putB]
            simp only [findB_putB]
            simp
          · rw [findB_putB]
            simp
          · simp [St.putB, List.append_assoc]

/-- Claim C3: for every PutJson request that succeeds (responds 200), the
json, mark, and ancestry blobs for the imageID all exist afterwards, the
writes to those three keys happened in the order mark then json then
ancestry, the first element of the stored ancestry array equals the imageID,
and any parent declared in the body is reachable by walking the ancestry.
(`hparent` is the spec §3 invariant that a stored ancestry contains its own
image id; `hpne` excludes the degenerate empty parent string, which spec §4.6
defines to mean "no parent".) -/
theorem c3_put_json_success (st : St) (imageID rawBody checksumHeader : String)
    (data : List (String × JVal))
    (hev : st.events = [])
    (hpne : alookup data "parent" ≠ some (JVal.str ""))
    (hparent : ∀ p l, alookup data "parent" = some (JVal.str p) →
        findB st.store (Path.imageAncestry p) = some (Blob.ids l) → p ∈ l)
    (h200 : (PutImageJsonHandler st imageID rawBody (some data) checksumHeader).1.status = 200) :
    findB (PutImageJsonHandler st imageID rawBody (some data) checksumHeader).2.store
        (Path.imageJson imageID) = some (Blob.raw rawBody)
    ∧ findB (PutImageJsonHandler st imageID rawBody (some data) checksumHeader).2.store
        (Path.imageMark imageID) = some (Blob.raw "true")
    ∧ (∃ rest, findB (PutImageJsonHandler st imageID rawBody (some data) checksumHeader).2.store
          (Path.imageAncestry imageID) = some (Blob.ids (imageID :: rest))
        ∧ (∀ p, alookup data "parent" = some (JVal.str p) → p ∈ imageID :: rest))
    ∧ keyEvents imageID (PutImageJsonHandler st imageID rawBody (some data) checksumHeader).2.events
        = [Ev.put (Path.imageMark imageID), Ev.put (Path.imageJson imageID),
           Ev.put (Path.imageAncestry imageID)] := by
  have hst1ev : (jsonChecksumStep st imageID checksumHeader).events
        = st.events ++ [(if checksumHeader = ""
            then Ev.remove (Path.imageChecksum imageID)
            else Ev.put (Path.imageChecksum imageID))] := by
    by_cases hch : checksumHeader = "" <;>
      simp [hch, jsonChecksumStep, St.removeB, St.putB, StoreChecksum]
  have hst1anc : ∀ p2 : String,
      findB (jsonChecksumStep st imageID checksumHeader).store (Path.imageAncestry p2)
        = findB st.store (Path.imageAncestry p2) := by
    intro p2
    by_cases hch : checksumHeader = "" <;>
      simp [hch, jsonChecksumStep, findB_removeB, StoreChecksum, findB_putB]
  simp only [PutImageJsonHandler] at h200 ⊢
  cases hid : alookup data "id" with
  | none =>
    rw [hid] at h200
    simp [resp] at h200
  | some idVal =>
    rw [hid] at h200
    simp only [] at h200 ⊢
    cases idVal with
    | other => simp [resp] at h200
    | str dataID =>
      simp only [] at h200 ⊢
      by_cases hidm : imageID ≠ dataID
      · rw [if_pos hidm] at h200
        simp [resp] at h200
      · rw [if_neg hidm] at h200 ⊢
        cases hpar : alookup data "parent" with
        | none =>
          rw [hpar] at h200
          simp only [] at h200 ⊢
          have hfin := putJsonFinish_success _ imageID rawBody "" h200
          refine ⟨hfin.1, hfin.2.1, ?_, ?_⟩
          · obtain ⟨rest, hrest, _⟩ := hfin.2.2.1
            exact ⟨rest, hrest, fun p hcontra => Option.noConfusion hcontra⟩
          · rw [hfin.2.2.2, hst1ev, hev]
            by_cases hch : checksumHeader = "" <;>
              simp [hch, keyEvents, beq_iff_eq]
        | some pv =>
          rw [hpar] at h200
          cases pv with
          | other =>
            simp [resp] at h200
          | str p =>
            simp only [] at h200 ⊢
            by_cases hpe : (!(St.existsB (jsonChecksumStep st imageID checksumHeader)
                (Path.imageJson p))) = true
            · rw [if_pos hpe] at h200
              simp [resp] at h200
            · rw [if_neg hpe] at h200 ⊢
              have hfin := putJsonFinish_success _ imageID rawBody p h200
              refine ⟨hfin.1, hfin.2.1, ?_, ?_⟩
              · obtain ⟨rest, hrest, hdisj⟩ := hfin.2.2.1
                refine ⟨rest, hrest, ?_⟩
                intro p2 hp2
                have hpp2 : p2 = p := by
                  injection hp2 with h2
                  injection h2 with h3
                  exact h3.symm
                subst hpp2
                cases hdisj with
                | inl hl =>
                  exact absurd (hl.1 ▸ hpar) hpne
                | inr hr =>
                  have hr2 : findB st.store (Path.imageAncestry p2) = some (Blob.ids rest) := by
                    rw [hst1anc p2] at hr
                    exact hr
                  exact List.mem_cons_of_mem _ (hparent p2 rest hpar hr2)
              · rw [hfin.2.2.2, hst1ev, hev]
                by_cases hch : checksumHeader = "" <;>
                  simp [hch, keyEvents, beq_iff_eq]

/-! ## Claim C10 -/

theorem putJsonFinish_checksum (st1 : St) (imageID rawBody parentID : String) :
    findB (putJsonFinish st1 imageID rawBody parentID).2.store (Path.imageChecksum imageID)
      = findB st1.store (Path.imageChecksum imageID) := by
  unfold putJsonFinish GenerateAncestry
  by_cases hc : (St.existsB st1 (Path.imageJson imageID)
      && !(St.existsB st1 (Path.imageMark imageID))) = true
  · rw [if_pos hc]
  · rw [if_neg hc]
    by_cases hp : parentID = ""
    · rw [if_pos hp]
      show findB (((st1.putB (Path.imageMark imageID) (Blob.raw "true")).putB
          (Path.imageJson imageID) (Blob.raw rawBody)).putB
          (Path.imageAncestry imageID) (Blob.ids [imageID])).store
          (Path.imageChecksum imageID) = findB st1.store (Path.imageChecksum imageID)
      rw [findB_putB, findB_putB, findB_putB]
      simp
    · rw [if_neg hp]
      cases hanc : findB ((st1.putB (Path.imageMark imageID) (Blob.raw "true")).putB
          (Path.imageJson imageID) (Blob.raw rawBody)).store (Path.imageAncestry parentID) with
      | none =>
        show findB ((st1.putB (Path.imageMark imageID) (Blob.raw "true")).putB
            (Path.imageJson imageID) (Blob.raw rawBody)).store
            (Path.imageChecksum imageID) = findB st1.store (Path.imageChecksum imageID)
        rw [findB_putB, findB_putB]
        simp
      | some ab =>
        cases ab with
        | raw sx =>
          show findB ((st1.putB (Path.imageMark imageID) (Blob.raw "true")).putB
              (Path.imageJson imageID) (Blob.raw rawBody)).store
              (Path.imageChecksum imageID) = findB st1.store (Path.imageChecksum imageID)
          rw [findB_putB, findB_putB]
          simp
        | files lx =>
          show findB ((st1.putB (Path.imageMark imageID) (Blob.raw "true")).putB
              (Path.imageJson imageID) (Blob.raw rawBody)).store
              (Path.imageChecksum imageID) = findB st1.store (Path.imageChecksum imageID)
          rw [findB_putB, findB_putB]
          simp
        | ids l =>
          show findB (((st1.putB (Path.imageMark imageID) (Blob.raw "true")).putB
              (Path.imageJson imageID) (Blob.raw rawBody)).putB
              (Path.imageAncestry imageID) (Blob.ids (imageID :: l))).store
              (Path.imageChecksum imageID) = findB st1.store (Path.imageChecksum imageID)
          rw [findB_putB, findB_putB, findB_putB]
          simp

/-- Claim C10: a PutJson whose body parses and contains an `id` key, but which
is rejected with 400 or 409 by the id-string, id-match, parent, or
already-exists checks, has nonetheless already removed (header absent) or
overwritten (header present) the stored checksum blob of the image: the
rejection is not atomic with respect to the checksum blob.  (The checksum
step at part_000:342-349 runs before all of those checks; the conclusion
holds for every outcome of the later checks, the 400/409 hypothesis singles
out the rejected requests the claim speaks about.) -/
theorem c10_checksum_removed_before_checks (st : St) (imageID rawBody checksumHeader : String)
    (data : List (String × JVal)) (idv : JVal)
    (hid : alookup data "id" = some idv)
    (hrej : (PutImageJsonHandler st imageID rawBody (some data) checksumHeader).1.status = 400
          ∨ (PutImageJsonHandler st imageID rawBody (some data) checksumHeader).1.status = 409) :
    findB (PutImageJsonHandler st imageID rawBody (some data) checksumHeader).2.store
        (Path.imageChecksum imageID)
      = if checksumHeader = "" then none else some (Blob.raw checksumHeader) := by
  have hst1ck : findB (jsonChecksumStep st imageID checksumHeader).store
      (Path.imageChecksum imageID)
        = if checksumHeader = "" then none else some (Blob.raw checksumHeader) := by
    by_cases hch : checksumHeader = "" <;>
      simp [hch, jsonChecksumStep, findB_removeB, StoreChecksum, findB_putB]
  simp only [PutImageJsonHandler]
  rw [hid]
  cases idv with
  | other => exact hst1ck
  | str dataID =>
    show findB (if imageID ≠ dataID
        then (resp 400, jsonChecksumStep st imageID checksumHeader)
        else match alookup data "parent" with
             | some JVal.other => (resp 400, jsonChecksumStep st imageID checksumHeader)
             | some (JVal.str p) =>
                 if (!(St.existsB (jsonChecksumStep st imageID checksumHeader)
                     (Path.imageJson p))) = true
                 then (resp 400, jsonChecksumStep st imageID checksumHeader)
                 else putJsonFinish (jsonChecksumStep st imageID checksumHeader) imageID rawBody p
             | none => putJsonFinish (jsonChecksumStep st imageID checksumHeader)
                 imageID rawBody "").2.store (Path.imageChecksum imageID)
        = if checksumHeader = "" then none else some (Blob.raw checksumHeader)
    by_cases hidm : imageID ≠ dataID
    · rw [if_pos hidm]
      exact hst1ck
    · rw [if_neg hidm]
      cases hpar : alookup data "parent" with
      | none =>
        show findB (putJsonFinish (jsonChecksumStep st imageID checksumHeader)
            imageID rawBody "").2.store (Path.imageChecksum imageID)
            = if checksumHeader = "" then none else some (Blob.raw checksumHeader)
        rw [putJsonFinish_checksum]
        exact hst1ck
      | some pv =>
        cases pv with
        | other => exact hst1ck
        | str p =>
          show findB (if (!(St.existsB (jsonChecksumStep st imageID checksumHeader)
              (Path.imageJson p))) = true
              then (resp 400, jsonChecksumStep st imageID checksumHeader)
              else putJsonFinish (jsonChecksumStep st imageID checksumHeader)
                imageID rawBody p).2.store (Path.imageChecksum imageID)
              = if checksumHeader = "" then none else some (Blob.raw checksumHeader)
          by_cases hpe : (!(St.existsB (jsonChecksumStep st imageID checksumHeader)
              (Path.imageJson p))) = true
          · rw [if_pos hpe]
            exact hst1ck
          · rw [if_neg hpe]
            rw [putJsonFinish_checksum]
            exact hst1ck

/-! ## Witnesses for C3 and C10 -/

/-- The empty store. -/
def stEmpty : St := { store := [], events := [] }

/-- A parsed PutJson body declaring only the id `abc`. -/
def dataC3 : List (String × JVal) := [("id", JVal.str "abc")]

theorem c3_witness :
    findB (PutImageJsonHandler stEmpty "abc" "raw" (some dataC3) "").2.store
        (Path.imageJson "abc") = some (Blob.raw "raw")
    ∧ findB (PutImageJsonHandler stEmpty "abc" "raw" (some dataC3) "").2.store
        (Path.imageMark "abc") = some (Blob.raw "true")
    ∧ (∃ rest, findB (PutImageJsonHandler stEmpty "abc" "raw" (some dataC3) "").2.store
          (Path.imageAncestry "abc") = some (Blob.ids ("abc" :: rest))
        ∧ (∀ p, alookup dataC3 "parent" = some (JVal.str p) → p ∈ "abc" :: rest))
    ∧ keyEvents "abc" (PutImageJsonHandler stEmpty "abc" "raw" (some dataC3) "").2.events
        = [Ev.put (Path.imageMark "abc"), Ev.put (Path.imageJson "abc"),
           Ev.put (Path.imageAncestry "abc")] :=
  c3_put_json_success stEmpty "abc" "raw" "" dataC3 rfl (by decide)
    (fun p l hcontra _ => Option.noConfusion hcontra) (by decide)

/-- A state holding a previously stored checksum for `abc` and nothing else. -/
def stOldSum : St := { store := [(Path.imageChecksum "abc", Blob.raw "old")], events := [] }

/-- A parsed PutJson body whose id disagrees with the path image id `abc`. -/
def dataC10 : List (String × JVal) := [("id", JVal.str "xyz")]

theorem c10_witness :
    findB (PutImageJsonHandler stOldSum "abc" "raw" (some dataC10) "").2.store
        (Path.imageChecksum "abc")
      = if ("" : String) = "" then none else some (Blob.raw "") :=
  c10_checksum_removed_before_checks stOldSum "abc" "raw" "" dataC10 (JVal.str "xyz") rfl
    (Or.inl (by decide))

/-! ## Claim C7 -/

theorem alookup_append {α : Type} (l1 l2 : List (String × α)) (k : String) :
    alookup (l1 ++ l2) k
      = match alookup l1 k with
        | some v => some v
        | none => alookup l2 k := by
  induction l1 with
  | nil => simp [alookup]
  | cons kv rest ih =>
    obtain ⟨k1, v1⟩ := kv
    by_cases hk : k1 = k <;> simp [alookup, hk, ih]

/-- Claim C7, amended: on GET image JSON with the image present, the
`X-Docker-Checksum` response header is set exactly when the checksum blob
exists and reading it fails, and when set its value is the empty bytes
returned alongside the error.  (The claim's added gloss that the header is
"set from the stored checksum whenever it is available" is refuted by
`c7_counterexample`.) -/
theorem c7_checksum_header_on_read_failure (st : St) (imageID : String) (m : Nat)
    (fails : Bool) (jb : Blob)
    (hjson : findB st.store (Path.imageJson imageID) = some jb) :
    ((alookup (GetImageJsonHandler st imageID m fails).1.headers "X-Docker-Checksum").isSome
        ↔ (St.existsB st (Path.imageChecksum imageID) = true ∧ fails = true))
      ∧ (∀ v, alookup (GetImageJsonHandler st imageID m fails).1.headers "X-Docker-Checksum"
            = some v → v = "") := by
  unfold GetImageJsonHandler
  rw [hjson]
  show ((alookup (getImageHeaders st imageID m fails) "X-Docker-Checksum").isSome
        ↔ (St.existsB st (Path.imageChecksum imageID) = true ∧ fails = true))
      ∧ (∀ v, alookup (getImageHeaders st imageID m fails) "X-Docker-Checksum"
            = some v → v = "")
  have hpre : ∀ part : List (String × String),
      alookup ((DefaultCacheHeaders m
        ++ (match findB st.store (Path.imageLayer imageID) with
            | some b => [("X-Docker-Size", toString b.bytes.length)]
            | none => [])) ++ part) "X-Docker-Checksum"
      = alookup part "X-Docker-Checksum" := by
    intro part
    rw [alookup_append, alookup_append]
    have h1 : alookup (DefaultCacheHeaders m) "X-Docker-Checksum" = none := rfl
    rw [h1]
    cases findB st.store (Path.imageLayer imageID) with
    | none => rfl
    | some b => rfl
  unfold getImageHeaders
  rw [hpre]
  by_cases hck : St.existsB st (Path.imageChecksum imageID) = true
  · rw [if_pos hck]
    cases fails with
    | false =>
      constructor
      · simp [alookup]
      · intro v hv
        simp [alookup] at hv
    | true =>
      constructor
      · simp [alookup, hck]
      · intro v hv
        simp [alookup] at hv
        exact hv.symm
  · rw [if_neg hck]
    constructor
    · simp [alookup, hck]
    · intro v hv
      simp [alookup] at hv

/-- A state with image json and a stored checksum for `abc`. -/
def stC7 : St :=
  { store := [(Path.imageJson "abc", Blob.raw "cfg"),
              (Path.imageChecksum "abc", Blob.raw "sha256:xyz")], events := [] }

/-- Claim C7 as stated is false in its "equivalently, the header is set from
the stored checksum whenever it is available" clause: here the checksum blob
exists and the read succeeds, yet no `X-Docker-Checksum` header is set. -/
theorem c7_counterexample :
    St.existsB stC7 (Path.imageChecksum "abc") = true
      ∧ alookup (GetImageJsonHandler stC7 "abc" 1 false).1.headers "X-Docker-Checksum"
          = none := by
  constructor <;> rfl

theorem c7_witness :
    ((alookup (GetImageJsonHandler stC7 "abc" 1 true).1.headers "X-Docker-Checksum").isSome
        ↔ (St.existsB stC7 (Path.imageChecksum "abc") = true ∧ true = true))
      ∧ (∀ v, alookup (GetImageJsonHandler stC7 "abc" 1 true).1.headers "X-Docker-Checksum"
            = some v → v = "") :=
  c7_checksum_header_on_read_failure stC7 "abc" 1 true (Blob.raw "cfg") (by decide)

/-! ## Claim C8 -/

/-- The User-Agent of spec scenario S6. -/
def uaS6 : String := "docker/1.2 go/1.3 arch/AMD64 os/Linux kernel/3.10"

/-- The `key/value` capture pairs a regular expression of the spec's form
produces on `uaS6`. -/
def s6matches : List (String × String) :=
  [("docker", "1.2"), ("go", "1.3"), ("arch", "AMD64"), ("os", "Linux"), ("kernel", "3.10")]

theorem alookup_foldl_mem {acc l : List (String × String)} {k v : String}
    (h : alookup (l.foldl (fun m kv => (kv.1, kv.2) :: m) acc) k = some v) :
    (∃ kv ∈ l, kv.1 = k) ∨ alookup acc k = some v := by
  induction l generalizing acc with
  | nil => exact Or.inr h
  | cons kv rest ih =>
    simp only [List.foldl_cons] at h
    rcases ih h with hmem | hacc
    · rcases hmem with ⟨kv2, hkv2, hk⟩
      exact Or.inl ⟨kv2, List.mem_cons_of_mem _ hkv2, hk⟩
    · by_cases hk : kv.1 = k
      · exact Or.inl ⟨kv, List.mem_cons_self _ _, hk⟩
      · right
        simpa [alookup, hk] using hacc

/-- Claim C8 meets a code bug: whatever the regular expression, every capture
is a substring of the User-Agent, and `"docker_version"` is not a substring
of scenario S6's UA — so the `uaMap["docker_version"]` lookup of
part_000:145 can never hit and the written metadata contains no
`docker_version` at all.  The remaining recognised keys behave as the claim
says (evaluated on the `key/value` capture pairs of the S6 UA, with
`now = 0`). -/
theorem c8_latest_tag_metadata :
    (∀ (now : Int) (uaMatches : List (String × String)),
        (∀ kv ∈ uaMatches, kv.1.data <:+: uaS6.data) →
          alookup (CreateRepoJson now uaMatches) "docker_version" = none)
      ∧ alookup (CreateRepoJson 0 s6matches) "docker_go_version" = some (RVal.str "1.3")
      ∧ alookup (CreateRepoJson 0 s6matches) "arch" = some (RVal.str "amd64")
      ∧ alookup (CreateRepoJson 0 s6matches) "os" = some (RVal.str "linux")
      ∧ alookup (CreateRepoJson 0 s6matches) "kernel" = some (RVal.str "3.10")
      ∧ alookup (CreateRepoJson 0 s6matches) "last_update" = some (RVal.int 0) := by
  refine ⟨?_, rfl, rfl, rfl, rfl, rfl⟩
  intro now ms hsub
  have hua : alookup (uaMapOf ms) "docker_version" = none := by
    cases hh : alookup (uaMapOf ms) "docker_version" with
    | none => rfl
    | some v =>
      exfalso
      unfold uaMapOf at hh
      rcases alookup_foldl_mem hh with ⟨kv, hmem, hk⟩ | hacc
      · have hs := hsub kv hmem
        rw [hk] at hs
        exact absurd hs (by decide)
      · simp [alookup] at hacc
  unfold CreateRepoJson
  rw [hua]
  cases hgo : alookup (uaMapOf ms) "go" <;>
    cases harch : alookup (uaMapOf ms) "arch" <;>
    cases hker : alookup (uaMapOf ms) "kernel" <;>
    cases hos : alookup (uaMapOf ms) "os" <;>
    simp [alookup_append, alookup]

theorem c8_witness :
    alookup (CreateRepoJson 0 s6matches) "docker_version" = none :=
  c8_latest_tag_metadata.1 0 s6matches (by decide)

/-! ## Claim C9 -/

/-- Claim C9 meets a code bug: the layout string passed to Go's
`time.Format` in caching.go:12 is chunked as described at `expiresString`, so
when the month of `now.UTC().Add(365*24h)` is January the emitted `Expires`
header is exactly the Unix epoch date — a past date, not a far-future one.
Cache-Control and Last-Modified are as the claim says, and any request with
at least one `If-Modified-Since` header is answered 304 without invoking the
wrapped handler or touching storage. -/
theorem c9_caching_and_not_modified :
    expiresString 1 = "Thu, 01 Jan 1970 00:00:00 GMT"
      ∧ (∀ m, alookup (DefaultCacheHeaders m) "Cache-Control"
            = some "public, max-age=31536000")
      ∧ (∀ m, alookup (DefaultCacheHeaders m) "Last-Modified"
            = some "Thu, 01 Jan 1970 00:00:00 GMT")
      ∧ (∀ (m : Nat) (handler : CReq → St → HResp × St) (r : CReq) (st : St),
          r.imsHeaders ≠ [] →
          CheckIfModifiedSince m handler r st
            = ({ status := 304, headers := DefaultCacheHeaders m, cookie := none }, st)) := by
  refine ⟨rfl, fun m => rfl, fun m => rfl, ?_⟩
  intro m handler r st hne
  unfold CheckIfModifiedSince
  rw [if_pos (List.length_pos_iff_ne_nil.mpr hne)]

theorem c9_witness :
    CheckIfModifiedSince 1 (fun _ st => (resp 200, st)) { imsHeaders := ["x"] } stEmpty
      = ({ status := 304, headers := DefaultCacheHeaders 1, cookie := none }, stEmpty) :=
  c9_caching_and_not_modified.2.2.2 1 (fun _ st => (resp 200, st))
    { imsHeaders := ["x"] } stEmpty (by decide)

end Registry
